import Mathlib

/-!
Verification of the probabilistic-linear-solver core of the probnum repository.

The development shallowly embeds the belief-update formulas, the induced
solution belief, the weak-mean-correspondence belief, the orthogonal
projection operator and the solver iteration engine over exact rational
arithmetic.  Vectors are functions `Fin n → ℚ`, matrices are Mathlib
matrices over ℚ, numpy matrix-vector products become `Matrix.mulVec`, inner
products become `Matrix.dotProduct`, and linear operators that the source
builds from matvec closures are embedded as the corresponding functions on
vectors.  Python exceptions become `Except` errors.
-/

namespace ProbNum

open Matrix

/-- Executable matrix inverse over ℚ through the adjugate; it agrees with
the Mathlib nonsingular inverse (see `matInv_eq_inv`) and is used to embed
`np.linalg.solve` and matrix inversion from the source. -/
def matInv {k : ℕ} (M : Matrix (Fin k) (Fin k) ℚ) : Matrix (Fin k) (Fin k) ℚ :=
  (M.det)⁻¹ • M.adjugate

/-- Belief over a square matrix quantity of the linear system (the system
matrix A or its inverse H): a matrix-variate Normal with the given mean and
symmetric-Kronecker covariance factor, as in
`rvs.Normal(mean, linops.SymmetricKronecker(covfactor))`
(`_symmetric_normal_linear_obs.py`).  Only the mean and the Kronecker factor
`cov.A` are ever read by the update formulas. -/
structure MatrixBelief (n : ℕ) where
  mean : Matrix (Fin n) (Fin n) ℚ
  covfactor : Matrix (Fin n) (Fin n) ℚ

/-- Embedding of
`SymmetricNormalLinearObsBeliefUpdate._matrix_model_update_components`:
`Ws = belief_matrix.cov.A @ action`, `delta_A = observation -
belief_matrix.mean @ action`, `u = Ws / (action.T @ Ws)`,
`v = delta_A - 0.5 * (action.T @ delta_A) * u`. -/
def matrixModelUpdateComponents {n : ℕ} (belief_matrix : MatrixBelief n)
    (action observation : Fin n → ℚ) :
    (Fin n → ℚ) × (Fin n → ℚ) × (Fin n → ℚ) :=
  let Ws := belief_matrix.covfactor *ᵥ action
  let delta_A := observation - belief_matrix.mean *ᵥ action
  let u := (action ⬝ᵥ Ws)⁻¹ • Ws
  let v := delta_A - ((1 / 2 : ℚ) * (action ⬝ᵥ delta_A)) • u
  (u, v, Ws)

/-- Embedding of the matvec closure built by
`_matrix_model_mean_update_op`: `mv(x) = u * (v.T @ x) + v * (u.T @ x)`. -/
def matrixModelMeanUpdateOpMatvec {n : ℕ} (u v x : Fin n → ℚ) : Fin n → ℚ :=
  (v ⬝ᵥ x) • u + (u ⬝ᵥ x) • v

/-- Embedding of the matvec closure built by
`_matrix_model_covariance_factor_update_op`: `mv(x) = Ws * (u.T @ x)`. -/
def matrixModelCovarianceFactorUpdateOpMatvec {n : ℕ} (u Ws x : Fin n → ℚ) :
    Fin n → ℚ :=
  (u ⬝ᵥ x) • Ws

/-- Updated mean of the A belief applied to a vector, embedding the
cached property `A` together with `A_update_terms`:
`A_mean = belief.A.mean + mean_update` where the mean update operator is
built by `_matrix_model_mean_update_op` from the components computed with
the action as action and the observation as observation. -/
def updatedBeliefAMeanMatvec {n : ℕ} (belief_A : MatrixBelief n)
    (action observation x : Fin n → ℚ) : Fin n → ℚ :=
  let c := matrixModelUpdateComponents belief_A action observation
  belief_A.mean *ᵥ x + matrixModelMeanUpdateOpMatvec c.1 c.2.1 x

/-- Updated covariance factor of the A belief applied to a vector, embedding
the cached property `A` together with `A_update_terms`:
`A_covfactor = belief.A.cov.A - cov_update`. -/
def updatedBeliefACovfactorMatvec {n : ℕ} (belief_A : MatrixBelief n)
    (action observation x : Fin n → ℚ) : Fin n → ℚ :=
  let c := matrixModelUpdateComponents belief_A action observation
  belief_A.covfactor *ᵥ x - matrixModelCovarianceFactorUpdateOpMatvec c.1 c.2.2 x

/-- Updated mean of the H (inverse) belief applied to a vector, embedding
the cached property `Ainv` together with `Ainv_update_terms`: the update
components are computed with the roles of action and observation swapped
(`action=self.observation, observation=self.action` in the source). -/
def updatedBeliefAinvMeanMatvec {n : ℕ} (belief_Ainv : MatrixBelief n)
    (action observation x : Fin n → ℚ) : Fin n → ℚ :=
  let c := matrixModelUpdateComponents belief_Ainv observation action
  belief_Ainv.mean *ᵥ x + matrixModelMeanUpdateOpMatvec c.1 c.2.1 x

/-- Updated covariance factor of the H (inverse) belief applied to a vector,
embedding the cached property `Ainv` together with `Ainv_update_terms`. -/
def updatedBeliefAinvCovfactorMatvec {n : ℕ} (belief_Ainv : MatrixBelief n)
    (action observation x : Fin n → ℚ) : Fin n → ℚ :=
  let c := matrixModelUpdateComponents belief_Ainv observation action
  belief_Ainv.covfactor *ᵥ x - matrixModelCovarianceFactorUpdateOpMatvec c.1 c.2.2 x

/-- Error raised by the belief update machinery; `notImplemented` models a
Python `NotImplementedError` and `typeError` models a Python `TypeError`. -/
inductive BeliefUpdateError where
  | notImplemented
  | typeError
deriving DecidableEq

/-- Modelled from the spec: the noise model
`probnum.linalg.solvers.beliefs.LinearSystemNoise` is not under `src`; from
its use in `_symmetric_normal_linear_obs.py`
(`LinearSystemNoise(A_eps=None, b_eps=None)` and the checks
`hyperparams.A_eps is None`, `hyperparams.b_eps is None`) it carries two
optional noise components, one for A and one for b, and only their presence
or absence is inspected by the update. -/
structure LinearSystemNoise (ε : Type) where
  A_eps : Option ε
  b_eps : Option ε

/-- Modelled from the spec: the solver state
`probnum.linalg.solvers.LinearSolverState` consumed by `_step_size` and
`_residual` is not under `src`; the spec (§3) lists its fields as iteration
counter, residual, inner products of actions and observations, step sizes
and log-Rayleigh quotients.  The log-Rayleigh quotient list is kept by the
source via floating-point `np.log` and is not modelled here; no claim
mentions it. -/
structure BeliefUpdateSolverState (n : ℕ) where
  iteration : ℕ
  residual : Fin n → ℚ
  action_obs_innerprods : List ℚ
  step_sizes : List ℚ

/-- Embedding of `SymmetricNormalLinearObsBeliefUpdate._step_size`: the
action-observation inner product is looked up in the state cache at index
`iteration` and computed as `action.T @ observation` on an `IndexError`;
the step size is `-action.T @ residual / action_obs_innerprod`; both the
inner product and the step size are appended to the state lists. -/
def stepSizeRun {n : ℕ} (st : BeliefUpdateSolverState n)
    (residual action observation : Fin n → ℚ) :
    ℚ × BeliefUpdateSolverState n :=
  let action_obs_innerprod :=
    match st.action_obs_innerprods.get? st.iteration with
    | some c => c
    | none => action ⬝ᵥ observation
  let step_size := -(action ⬝ᵥ residual) / action_obs_innerprod
  (step_size,
    { st with
      action_obs_innerprods := st.action_obs_innerprods ++ [action_obs_innerprod]
      step_sizes := st.step_sizes ++ [step_size] })

/-- Embedding of `SymmetricNormalLinearObsBeliefUpdate._residual`:
`new_residual = residual + step_size * observation`, stored into the solver
state. -/
def residualRun {n : ℕ} (st : BeliefUpdateSolverState n)
    (residual : Fin n → ℚ) (step_size : ℚ) (observation : Fin n → ℚ) :
    (Fin n → ℚ) × BeliefUpdateSolverState n :=
  let new_residual := residual + step_size • observation
  (new_residual, { st with residual := new_residual })

/-- Embedding of `SymmetricNormalLinearObsBeliefUpdate._update_terms_x`: in
the noiseless case it reads the current residual from the solver state,
computes the step size, the solution mean update `step_size * action` and
the updated residual; any supplied noise model on A or b raises
`NotImplementedError`. -/
def updateTermsX {n : ℕ} {ε : Type} (noise : LinearSystemNoise ε)
    (st : BeliefUpdateSolverState n) (action observation : Fin n → ℚ) :
    Except BeliefUpdateError ((Fin n → ℚ) × BeliefUpdateSolverState n) :=
  match noise.A_eps, noise.b_eps with
  | none, none =>
    let residual := st.residual
    let s := stepSizeRun st residual action observation
    let x_mean_update := s.1 • action
    let r := residualRun s.2 residual s.1 observation
    Except.ok (x_mean_update, r.2)
  | _, _ => Except.error BeliefUpdateError.notImplemented

/-- Embedding of `SymmetricNormalLinearObsBeliefUpdate._updated_belief_x`:
in the noiseless case the source computes the update terms and then
evaluates `belief_x.mean + update_terms_x.mean`.  `_update_terms_x` returns
the bare array `step_size * self.action` rather than the
`LinearSolverBeliefUpdateTerms` record its signature declares, so
`update_terms_x.mean` is the ndarray mean method and the addition raises a
`TypeError`; the solver-state mutations committed by `_step_size` and
`_residual` persist, since they happened before the failing addition.  In
the noisy case `None` is returned with the untouched state.  The inner
error arm is unreachable because `updateTermsX` succeeds whenever both
noise components are absent. -/
def updatedBeliefX {n : ℕ} {ε : Type} (belief_x_mean : Fin n → ℚ)
    (noise : LinearSystemNoise ε) (st : BeliefUpdateSolverState n)
    (action observation : Fin n → ℚ) :
    Except BeliefUpdateError (Option (Fin n → ℚ)) × BeliefUpdateSolverState n :=
  match noise.A_eps, noise.b_eps with
  | none, none =>
    match updateTermsX noise st action observation with
    | Except.ok p => (Except.error BeliefUpdateError.typeError, p.2)
    | Except.error e => (Except.error e, st)
  | _, _ => (Except.ok none, st)

/-- Kind of observation operator passed to
`SymmetricLinearSystemBelief.update`; the source dispatches on
`isinstance(observation_op, MatVecObservation)` and treats every other
operator type uniformly. -/
inductive ObservationOperatorKind where
  | matVecObservation
  | nonMatVec
deriving DecidableEq

/-- Embedding of the dispatch in `SymmetricLinearSystemBelief.update`
(`_symmetric_linear_system.py`): a `MatVecObservation` operator runs the
symmetric-normal belief update (abstracted here as `belief_update`, whose
body lives in a module that only the `matVecObservation` branch reaches);
any other observation operator raises `NotImplementedError`. -/
def symmetricLinearSystemBeliefUpdate {R : Type}
    (observation_op : ObservationOperatorKind) (belief_update : Unit → R) :
    Except BeliefUpdateError R :=
  match observation_op with
  | ObservationOperatorKind.matVecObservation => Except.ok (belief_update ())
  | ObservationOperatorKind.nonMatVec => Except.error BeliefUpdateError.notImplemented

/-- Embedding of the mean of `_induced_solution_belief`
(`_symmetric_normal_linear_system.py`): `mean = self.Ainv.mean @ self.b.mean`. -/
def inducedSolutionMean {n : ℕ} (Ainv_mean : Matrix (Fin n) (Fin n) ℚ)
    (b_mean : Fin n → ℚ) : Fin n → ℚ :=
  Ainv_mean *ᵥ b_mean

/-- Embedding of the matvec closure built by `_induced_solution_cov`:
`Wb = self.Ainv.cov.A @ self.b.mean`, `bWb = Wb.T @ self.b.mean`,
`_mv(v) = 0.5 * (bWb * self.Ainv.cov.A @ v + Wb @ (Wb.T @ v))`. -/
def inducedSolutionCovMatvec {n : ℕ} (W : Matrix (Fin n) (Fin n) ℚ)
    (b_mean v : Fin n → ℚ) : Fin n → ℚ :=
  let Wb := W *ᵥ b_mean
  let bWb := Wb ⬝ᵥ b_mean
  ((1 : ℚ) / 2) • (bWb • (W *ᵥ v) + (Wb ⬝ᵥ v) • Wb)

/-- Embedding of the efficient trace formula attached in
`_induced_solution_cov`:
`0.5 * (self.Ainv.cov.A.trace() * np.trace(bWb) + np.trace(Wb.T @ Wb))`,
with the 1-by-1 traces of `bWb` and `Wb.T @ Wb` written as scalars. -/
def inducedSolutionCovTraceFormula {n : ℕ} (W : Matrix (Fin n) (Fin n) ℚ)
    (b_mean : Fin n → ℚ) : ℚ :=
  let Wb := W *ᵥ b_mean
  ((1 : ℚ) / 2) * (Matrix.trace W * (Wb ⬝ᵥ b_mean) + Wb ⬝ᵥ Wb)

/-- Embedding of `WeakMeanCorrespondenceBelief` (`_weak_mean_correspondence.py`)
with `k` recorded action-observation pairs stacked as matrix columns, as
produced by `np.hstack`.  The constructor stores the prior means `A0` and
`Ainv0` and builds `A = rvs.Normal(mean=self.A0, ...)` and
`Ainv = rvs.Normal(mean=self.Ainv0, ...)`, so the means of the resulting
belief are exactly the stored prior means. -/
structure WeakMeanCorrespondenceBelief (n k : ℕ) where
  A0 : Matrix (Fin n) (Fin n) ℚ
  Ainv0 : Matrix (Fin n) (Fin n) ℚ
  actions : Matrix (Fin n) (Fin k) ℚ
  observations : Matrix (Fin n) (Fin k) ℚ
  Phi : ℚ
  Psi : ℚ

/-- Mean of the A belief constructed by `WeakMeanCorrespondenceBelief.__init__`:
`rvs.Normal(mean=self.A0, cov=...)`. -/
def WeakMeanCorrespondenceBelief.AbeliefMean {n k : ℕ}
    (B : WeakMeanCorrespondenceBelief n k) : Matrix (Fin n) (Fin n) ℚ :=
  B.A0

/-- Mean of the H (inverse) belief constructed by
`WeakMeanCorrespondenceBelief.__init__`: `rvs.Normal(mean=self.Ainv0, cov=...)`. -/
def WeakMeanCorrespondenceBelief.AinvBeliefMean {n k : ℕ}
    (B : WeakMeanCorrespondenceBelief n k) : Matrix (Fin n) (Fin n) ℚ :=
  B.Ainv0

/-- Span of the recorded observation vectors (the columns of
`self.observations`). -/
def WeakMeanCorrespondenceBelief.observationSpan {n k : ℕ}
    (B : WeakMeanCorrespondenceBelief n k) : Submodule ℚ (Fin n → ℚ) :=
  Submodule.span ℚ (Set.range B.observationsᵀ)

/-- Embedding of the diagonal-solve shortcut branch of
`WeakMeanCorrespondenceBelief._cov_factor_matrix` taken when
`action_obs_innerprods` is a vector (conjugate actions):
`(self.observations * action_obs_innerprods ** -1) @ (self.observations.T @ x)`,
where numpy broadcasting scales column j of the observations by the inverse
of the j-th inner product. -/
def WeakMeanCorrespondenceBelief.covFactorMatrixDiagMatvec {n k : ℕ}
    (B : WeakMeanCorrespondenceBelief n k) (action_obs_innerprods : Fin k → ℚ)
    (x : Fin n → ℚ) : Fin n → ℚ :=
  (Matrix.of fun i j => B.observations i j * (action_obs_innerprods j)⁻¹) *ᵥ
    (B.observationsᵀ *ᵥ x)

/-- Embedding of the general branch of
`WeakMeanCorrespondenceBelief._cov_factor_matrix`:
`self.observations @ np.linalg.solve(action_obs_innerprods, self.observations.T @ x)`,
with the linear solve written as multiplication by the matrix inverse. -/
def WeakMeanCorrespondenceBelief.covFactorMatrixGeneralMatvec {n k : ℕ}
    (B : WeakMeanCorrespondenceBelief n k)
    (action_obs_innerprods : Matrix (Fin k) (Fin k) ℚ) (x : Fin n → ℚ) :
    Fin n → ℚ :=
  B.observations *ᵥ (matInv action_obs_innerprods *ᵥ (B.observationsᵀ *ᵥ x))

/-- Embedding of `OrthogonalProjection._transformed_basis`
(`linops/_projections.py`): the declared-orthonormal shortcut returns the
basis itself; otherwise `np.linalg.solve(basis.T @ (D @ basis), basis.T).T`,
which is `basis * transpose of the inverse of the Gram matrix`.  The
single-column branch of the source divides by the 1-by-1 Gram entry and
computes the same value as the general branch. -/
def transformedBasis {n k : ℕ} (subspace_basis : Matrix (Fin n) (Fin k) ℚ)
    (innerprod_matrix : Matrix (Fin n) (Fin n) ℚ) (is_orthonormal : Bool) :
    Matrix (Fin n) (Fin k) ℚ :=
  if is_orthonormal then subspace_basis
  else subspace_basis * (matInv (subspace_basisᵀ * innerprod_matrix * subspace_basis))ᵀ

/-- Embedding of `OrthogonalProjection._matvec` on its main branch:
`self.subspace_basis @ self._transformed_basis.T @ (self.innerprod_matrix @ x)`.
After `__init__` the stored basis always has at most as many columns as
rows (a wide spanning set is replaced by an orthonormal basis of its range),
so the early-return branch for a full-rank square basis with the identity
inner product is subsumed by this formula. -/
def orthogonalProjectionMatvec {n k : ℕ}
    (subspace_basis : Matrix (Fin n) (Fin k) ℚ)
    (innerprod_matrix : Matrix (Fin n) (Fin n) ℚ) (is_orthonormal : Bool)
    (x : Fin n → ℚ) : Fin n → ℚ :=
  subspace_basis *ᵥ
    ((transformedBasis subspace_basis innerprod_matrix is_orthonormal)ᵀ *ᵥ
      (innerprod_matrix *ᵥ x))

/-- Positive definiteness of a rational matrix, stated through the quadratic
form as for a symmetric positive definite inner-product matrix. -/
def matPosDef {n : ℕ} (D : Matrix (Fin n) (Fin n) ℚ) : Prop :=
  ∀ x : Fin n → ℚ, x ≠ 0 → 0 < x ⬝ᵥ (D *ᵥ x)

/-- Modelled from the spec: the linear system problem
(`probnum.problems.LinearSystem`, not under `src`) holds the matrix A and
the right-hand side b; only these two attributes are read by the solver
engine. -/
structure LinearSystem (n : ℕ) where
  A : Matrix (Fin n) (Fin n) ℚ
  b : Fin n → ℚ

/-- Embedding of the `LinearSolverState` dataclass of
`linearsolvers/_probabilistic_linear_solver.py`: current belief, action and
observation histories, iteration counter, residual, Rayleigh quotients,
convergence flag and the name of the stopping criterion that fired.  The
`belief` field comes from the base dataclass `PNMethodState`, whose
definition is not under `src` and is modelled from its use here. -/
structure LinearSolverState (n : ℕ) (B : Type) where
  belief : B
  actions : List (Fin n → ℚ)
  observations : List (Fin n → ℚ)
  iteration : ℕ
  residual : Fin n → ℚ
  rayleigh_quotients : List ℚ
  has_converged : Bool
  stopping_criterion : Option String

/-- Stopping criterion of the engine: a boolean predicate over problem,
belief and solver state, together with its class name (the source stores
`stopping_criterion.__class__.__name__` on the state when it fires). -/
structure StoppingCriterion (n : ℕ) (B : Type) where
  eval : LinearSystem n → B → LinearSolverState n B → Bool
  name : String

/-- Embedding of the `ProbabilisticLinearSolver` composition of
`linearsolvers/_probabilistic_linear_solver.py`: prior belief, policy,
observation process, belief update and stopping criteria.  The belief type
is abstract; `prior_x_mean` models `self.prior[0].mean`, the mean of the
solution component of the prior tuple, which the engine reads to initialize
the residual. -/
structure ProbabilisticLinearSolver (n : ℕ) (B : Type) where
  prior : B
  prior_x_mean : Fin n → ℚ
  policy : LinearSystem n → B → (Fin n → ℚ)
  observe : LinearSystem n → (Fin n → ℚ) → (Fin n → ℚ)
  update_belief : B → (Fin n → ℚ) → (Fin n → ℚ) → B
  stopping_criteria : List (StoppingCriterion n B)

/-- Embedding of `ProbabilisticLinearSolver.has_converged`: an already
converged state is returned unchanged; otherwise the criteria are evaluated
in order and the first true one sets the convergence flag and records its
class name.  The source passes `self.belief` to each criterion, an
attribute that is never assigned anywhere (the base class only sets
`self.prior`); the prior, the only belief the solver object holds, stands
in for it here. -/
def hasConverged {n : ℕ} {B : Type} (solver : ProbabilisticLinearSolver n B)
    (problem : LinearSystem n) (solver_belief : B)
    (st : LinearSolverState n B) : Bool × LinearSolverState n B :=
  if st.has_converged then (true, st)
  else
    match solver.stopping_criteria.find? (fun c => c.eval problem solver_belief st) with
    | some c => (true, { st with has_converged := true, stopping_criterion := some c.name })
    | none => (false, st)

/-- Initial solver state built at the top of
`ProbabilisticLinearSolver.solve_iterator`: prior belief, empty histories,
iteration 0 and residual `problem.A @ self.prior[0].mean - problem.b`. -/
def solveIteratorInit {n : ℕ} {B : Type} (solver : ProbabilisticLinearSolver n B)
    (problem : LinearSystem n) : LinearSolverState n B :=
  { belief := solver.prior
    actions := []
    observations := []
    iteration := 0
    residual := problem.A *ᵥ solver.prior_x_mean - problem.b
    rayleigh_quotients := []
    has_converged := false
    stopping_criterion := none }

/-- One pass of the while-loop body of
`ProbabilisticLinearSolver.solve_iterator`: compute an action via the
policy and append it, make an observation and append it, then update the
belief.  The iteration counter is not touched, exactly as in the source. -/
def solveLoopBody {n : ℕ} {B : Type} (solver : ProbabilisticLinearSolver n B)
    (problem : LinearSystem n) (st : LinearSolverState n B) :
    LinearSolverState n B :=
  let action := solver.policy problem st.belief
  let st1 := { st with actions := st.actions ++ [action] }
  let observation := solver.observe problem action
  let st2 := { st1 with observations := st1.observations ++ [observation] }
  { st2 with belief := solver.update_belief st2.belief action observation }

/-- Driver of the generator loop of `solve_iterator`: while the convergence
flag is false, run the loop body, re-evaluate the stopping criteria, and
yield the resulting state.  The fuel argument models the caller ceasing to
pull from the generator; the returned list collects the yielded states in
order, paired with the last state. -/
def solveIteratorGo {n : ℕ} {B : Type} (solver : ProbabilisticLinearSolver n B)
    (problem : LinearSystem n) :
    ℕ → Bool → LinearSolverState n B → List (LinearSolverState n B) →
      List (LinearSolverState n B) × LinearSolverState n B
  | _, true, st, acc => (acc.reverse, st)
  | 0, false, st, acc => (acc.reverse, st)
  | Nat.succ fuel, false, st, acc =>
    let stb := solveLoopBody solver problem st
    let p := hasConverged solver problem solver.prior stb
    solveIteratorGo solver problem fuel p.1 p.2 (p.2 :: acc)

/-- Embedding of `ProbabilisticLinearSolver.solve_iterator`: build the
initial state, evaluate the stopping criteria once before the loop, then
run the loop; returns the yielded states and the final state. -/
def solveIteratorRun {n : ℕ} {B : Type} (solver : ProbabilisticLinearSolver n B)
    (problem : LinearSystem n) (fuel : ℕ) :
    List (LinearSolverState n B) × LinearSolverState n B :=
  let st0 := solveIteratorInit solver problem
  let p0 := hasConverged solver problem solver.prior st0
  solveIteratorGo solver problem fuel p0.1 p0.2 []

/-- Error raised by the solver engine; `notImplemented` models the
`NotImplementedError` raised by the `_belief_solution` stub. -/
inductive SolverError where
  | notImplemented
deriving DecidableEq

/-- Embedding of `ProbabilisticLinearSolver.solve`: the iterator is drained
(`for solver_state in solve_iterator: pass`) and then
`x, A, Ainv = self._belief_solution()` runs; `_belief_solution`
unconditionally raises `NotImplementedError`, so the return statement with
the final belief and state is never reached. -/
def solve {n : ℕ} {B : Type} (solver : ProbabilisticLinearSolver n B)
    (problem : LinearSystem n) (fuel : ℕ) :
    Except SolverError (B × LinearSolverState n B) :=
  let _drained := solveIteratorRun solver problem fuel
  Except.error SolverError.notImplemented

/-- Concrete one-dimensional problem used to exercise the solver engine. -/
def solveBugProblem : LinearSystem 1 :=
  { A := !![1], b := ![0] }

/-- Stopping criterion that is satisfied on every state, in particular on
the freshly initialized one. -/
def solveBugCriterion : StoppingCriterion 1 ℕ :=
  { eval := fun _ _ _ => true
    name := "AlwaysConverged" }

/-- Concrete solver whose stopping criteria are satisfied immediately; the
belief type is ℕ so that an unchanged belief is observable. -/
def solveBugSolver : ProbabilisticLinearSolver 1 ℕ :=
  { prior := 7
    prior_x_mean := ![0]
    policy := fun _ _ => ![1]
    observe := fun problem action => problem.A *ᵥ action
    update_belief := fun belief _ _ => belief + 1
    stopping_criteria := [solveBugCriterion] }

/-- Concrete problem for exercising one pass of the solver loop. -/
def loopBugProblem : LinearSystem 1 :=
  { A := !![1], b := ![1] }

/-- Concrete solver with no stopping criteria, so that the loop body runs;
the belief type is ℕ. -/
def loopBugSolver : ProbabilisticLinearSolver 1 ℕ :=
  { prior := 0
    prior_x_mean := ![0]
    policy := fun _ _ => ![1]
    observe := fun problem action => problem.A *ᵥ action
    update_belief := fun belief _ _ => belief + 1
    stopping_criteria := [] }

/-- Concrete belief-update solver state used as a witness input. -/
def c3State : BeliefUpdateSolverState 1 :=
  { iteration := 0
    residual := ![2]
    action_obs_innerprods := []
    step_sizes := [] }

/-- Concrete weak-mean-correspondence belief whose prior means are not
mutual inverses. -/
def weakCorrCounterexampleBelief : WeakMeanCorrespondenceBelief 1 1 :=
  { A0 := !![2]
    Ainv0 := !![1]
    actions := !![1 / 2]
    observations := !![1]
    Phi := 1
    Psi := 1 }

/-- Concrete weak-mean-correspondence belief whose prior means are mutual
inverses, as produced by the `from_scalar`, `from_matrix` and `from_inverse`
constructors. -/
def weakCorrInversePriorBelief : WeakMeanCorrespondenceBelief 1 1 :=
  { A0 := !![2]
    Ainv0 := !![1 / 2]
    actions := !![1 / 2]
    observations := !![1]
    Phi := 1
    Psi := 1 }

/- Helper lemmas. -/

/-- Rank-one matrices built from an outer product act on a vector through
the inner product with the second factor. -/
lemma vecMulVec_mulVec_eq {n : ℕ} (u v x : Fin n → ℚ) :
    vecMulVec u v *ᵥ x = (v ⬝ᵥ x) • u := by
  ext i
  simp only [Matrix.mulVec, Matrix.vecMulVec_apply, dotProduct, Pi.smul_apply, smul_eq_mul,
    Finset.sum_mul]
  exact Finset.sum_congr rfl fun j _ => by ring

/-- Trace of an outer product is the inner product of its factors. -/
lemma trace_vecMulVec_eq {n : ℕ} (u v : Fin n → ℚ) :
    Matrix.trace (vecMulVec u v) = u ⬝ᵥ v := by
  simp only [Matrix.trace, Matrix.diag, Matrix.vecMulVec_apply, dotProduct]

/-- The executable adjugate-based inverse agrees with the Mathlib inverse. -/
lemma matInv_eq_inv {k : ℕ} (M : Matrix (Fin k) (Fin k) ℚ) : matInv M = M⁻¹ := by
  rw [matInv, Matrix.inv_def, Ring.inverse_eq_inv']

/-- A nonzero rational vector has positive inner product with itself. -/
lemma dotProduct_self_pos {n : ℕ} (x : Fin n → ℚ) (hx : x ≠ 0) : 0 < x ⬝ᵥ x := by
  obtain ⟨i, hi⟩ := Function.ne_iff.mp hx
  refine Finset.sum_pos' (fun j _ => mul_self_nonneg (x j)) ⟨i, Finset.mem_univ i, ?_⟩
  exact mul_self_pos.mpr hi

/-- Adding the mean-update operator matvec to a matrix-vector product is the
action of the matrix updated by the symmetric rank-2 term. -/
lemma meanOp_matrix_eq {n : ℕ} (E : Matrix (Fin n) (Fin n) ℚ) (u v x : Fin n → ℚ) :
    E *ᵥ x + matrixModelMeanUpdateOpMatvec u v x
      = (E + vecMulVec u v + vecMulVec v u) *ᵥ x := by
  rw [Matrix.add_mulVec, Matrix.add_mulVec, vecMulVec_mulVec_eq, vecMulVec_mulVec_eq, add_assoc]
  rfl

/-- Subtracting the covariance-factor update operator matvec is the action
of the matrix downdated by the rank-one term with the factors in the order
stated by the spec; the two orders agree because the first factor is a
scalar multiple of the second. -/
lemma covfactorOp_matrix_eq {n : ℕ} (W : Matrix (Fin n) (Fin n) ℚ) (c : ℚ) (Ws x : Fin n → ℚ) :
    W *ᵥ x - matrixModelCovarianceFactorUpdateOpMatvec (c • Ws) Ws x
      = (W - vecMulVec (c • Ws) Ws) *ᵥ x := by
  rw [Matrix.sub_mulVec, vecMulVec_mulVec_eq]
  congr 1
  show ((c • Ws) ⬝ᵥ x) • Ws = (Ws ⬝ᵥ x) • (c • Ws)
  rw [smul_dotProduct, smul_eq_mul]
  ext i
  simp only [Pi.smul_apply, smul_eq_mul]
  ring

/-- Applying the rank-2 mean update built from action a and observation o to
the action itself reproduces the observation whenever the covariance-factor
quadratic form at the action does not vanish. -/
lemma mean_update_reproduces {n : ℕ} (E W : Matrix (Fin n) (Fin n) ℚ) (a o : Fin n → ℚ)
    (h : a ⬝ᵥ (W *ᵥ a) ≠ 0) :
    E *ᵥ a + matrixModelMeanUpdateOpMatvec
        ((a ⬝ᵥ (W *ᵥ a))⁻¹ • (W *ᵥ a))
        ((o - E *ᵥ a) - ((1 / 2 : ℚ) * (a ⬝ᵥ (o - E *ᵥ a))) •
          ((a ⬝ᵥ (W *ᵥ a))⁻¹ • (W *ᵥ a))) a
      = o := by
  have hu : ((a ⬝ᵥ (W *ᵥ a))⁻¹ • (W *ᵥ a)) ⬝ᵥ a = 1 := by
    rw [smul_dotProduct, dotProduct_comm (W *ᵥ a) a, smul_eq_mul, inv_mul_cancel₀ h]
  have hv : ((o - E *ᵥ a) - ((1 / 2 : ℚ) * (a ⬝ᵥ (o - E *ᵥ a))) •
        ((a ⬝ᵥ (W *ᵥ a))⁻¹ • (W *ᵥ a))) ⬝ᵥ a
      = (1 / 2 : ℚ) * (a ⬝ᵥ (o - E *ᵥ a)) := by
    rw [sub_dotProduct, smul_dotProduct, hu, smul_eq_mul, mul_one,
      dotProduct_comm (o - E *ᵥ a) a]
    ring
  simp only [matrixModelMeanUpdateOpMatvec]
  rw [hu, hv, one_smul]
  ext i
  simp only [Pi.add_apply, Pi.sub_apply, Pi.smul_apply, smul_eq_mul]
  ring

/- Theorems settling the claims. -/

/-- C1.  The noiseless symmetric-normal belief update computes
Ws, delta, u and v by the stated formulas, updates the A mean by the
symmetric rank-2 term and downdates the A covariance factor by the
rank-1 term u times transpose of Ws, and applies the mirrored formulas to
the H belief with the roles of action and observation swapped. -/
theorem symmetric_normal_update_terms_spec {n : ℕ}
    (belief_A belief_Ainv : MatrixBelief n) (action observation x : Fin n → ℚ)
    (hA : action ⬝ᵥ (belief_A.covfactor *ᵥ action) ≠ 0)
    (hH : observation ⬝ᵥ (belief_Ainv.covfactor *ᵥ observation) ≠ 0) :
    let Ws := belief_A.covfactor *ᵥ action
    let delta_A := observation - belief_A.mean *ᵥ action
    let u := (action ⬝ᵥ Ws)⁻¹ • Ws
    let v := delta_A - ((1 / 2 : ℚ) * (action ⬝ᵥ delta_A)) • u
    let Wy := belief_Ainv.covfactor *ᵥ observation
    let delta_H := action - belief_Ainv.mean *ᵥ observation
    let uH := (observation ⬝ᵥ Wy)⁻¹ • Wy
    let vH := delta_H - ((1 / 2 : ℚ) * (observation ⬝ᵥ delta_H)) • uH
    matrixModelUpdateComponents belief_A action observation = (u, v, Ws)
    ∧ updatedBeliefAMeanMatvec belief_A action observation x
        = (belief_A.mean + vecMulVec u v + vecMulVec v u) *ᵥ x
    ∧ updatedBeliefACovfactorMatvec belief_A action observation x
        = (belief_A.covfactor - vecMulVec u Ws) *ᵥ x
    ∧ matrixModelUpdateComponents belief_Ainv observation action = (uH, vH, Wy)
    ∧ updatedBeliefAinvMeanMatvec belief_Ainv action observation x
        = (belief_Ainv.mean + vecMulVec uH vH + vecMulVec vH uH) *ᵥ x
    ∧ updatedBeliefAinvCovfactorMatvec belief_Ainv action observation x
        = (belief_Ainv.covfactor - vecMulVec uH Wy) *ᵥ x := by
  intro Ws delta_A u v Wy delta_H uH vH
  refine ⟨rfl, ?_, ?_, rfl, ?_, ?_⟩
  · exact meanOp_matrix_eq belief_A.mean u v x
  · exact covfactorOp_matrix_eq belief_A.covfactor ((action ⬝ᵥ Ws)⁻¹) Ws x
  · exact meanOp_matrix_eq belief_Ainv.mean uH vH x
  · exact covfactorOp_matrix_eq belief_Ainv.covfactor ((observation ⬝ᵥ Wy)⁻¹) Wy x

/-- C1 witness.  The update-term characterization instantiated at a concrete
one-dimensional belief, action and observation. -/
theorem symmetric_normal_update_terms_spec_witness :
    ((![(1 : ℚ)] ⬝ᵥ ((!![1] : Matrix (Fin 1) (Fin 1) ℚ) *ᵥ ![1])) ≠ 0)
    ∧ ((![(2 : ℚ)] ⬝ᵥ ((!![1] : Matrix (Fin 1) (Fin 1) ℚ) *ᵥ ![2])) ≠ 0)
    ∧ (let Ws := (⟨!![1], !![1]⟩ : MatrixBelief 1).covfactor *ᵥ ![1]
       let delta_A := ![2] - (⟨!![1], !![1]⟩ : MatrixBelief 1).mean *ᵥ ![1]
       let u := (![1] ⬝ᵥ Ws)⁻¹ • Ws
       let v := delta_A - ((1 / 2 : ℚ) * (![1] ⬝ᵥ delta_A)) • u
       let Wy := (⟨!![1], !![1]⟩ : MatrixBelief 1).covfactor *ᵥ ![2]
       let delta_H := ![1] - (⟨!![1], !![1]⟩ : MatrixBelief 1).mean *ᵥ ![2]
       let uH := (![2] ⬝ᵥ Wy)⁻¹ • Wy
       let vH := delta_H - ((1 / 2 : ℚ) * (![2] ⬝ᵥ delta_H)) • uH
       matrixModelUpdateComponents (⟨!![1], !![1]⟩ : MatrixBelief 1) ![1] ![2] = (u, v, Ws)
       ∧ updatedBeliefAMeanMatvec (⟨!![1], !![1]⟩ : MatrixBelief 1) ![1] ![2] ![1]
           = ((⟨!![1], !![1]⟩ : MatrixBelief 1).mean + vecMulVec u v + vecMulVec v u) *ᵥ ![1]
       ∧ updatedBeliefACovfactorMatvec (⟨!![1], !![1]⟩ : MatrixBelief 1) ![1] ![2] ![1]
           = ((⟨!![1], !![1]⟩ : MatrixBelief 1).covfactor - vecMulVec u Ws) *ᵥ ![1]
       ∧ matrixModelUpdateComponents (⟨!![1], !![1]⟩ : MatrixBelief 1) ![2] ![1] = (uH, vH, Wy)
       ∧ updatedBeliefAinvMeanMatvec (⟨!![1], !![1]⟩ : MatrixBelief 1) ![1] ![2] ![1]
           = ((⟨!![1], !![1]⟩ : MatrixBelief 1).mean + vecMulVec uH vH + vecMulVec vH uH) *ᵥ ![1]
       ∧ updatedBeliefAinvCovfactorMatvec (⟨!![1], !![1]⟩ : MatrixBelief 1) ![1] ![2] ![1]
           = ((⟨!![1], !![1]⟩ : MatrixBelief 1).covfactor - vecMulVec uH Wy) *ᵥ ![1]) := by
  have h1 : (![(1 : ℚ)] ⬝ᵥ ((!![1] : Matrix (Fin 1) (Fin 1) ℚ) *ᵥ ![1])) ≠ 0 := by
    norm_num [Matrix.mulVec, dotProduct]
  have h2 : (![(2 : ℚ)] ⬝ᵥ ((!![1] : Matrix (Fin 1) (Fin 1) ℚ) *ᵥ ![2])) ≠ 0 := by
    norm_num [Matrix.mulVec, dotProduct]
  exact ⟨h1, h2,
    symmetric_normal_update_terms_spec ⟨!![1], !![1]⟩ ⟨!![1], !![1]⟩ ![1] ![2] ![1] h1 h2⟩

/-- C9.  After a single noiseless rank-2 update the updated A mean maps the
action to the observation, and the updated H mean maps the observation back
to the action, provided the respective covariance-factor quadratic forms do
not vanish. -/
theorem rank_two_update_reproduces_data {n : ℕ}
    (belief_A belief_Ainv : MatrixBelief n) (action observation : Fin n → ℚ)
    (hA : action ⬝ᵥ (belief_A.covfactor *ᵥ action) ≠ 0)
    (hH : observation ⬝ᵥ (belief_Ainv.covfactor *ᵥ observation) ≠ 0) :
    updatedBeliefAMeanMatvec belief_A action observation action = observation
    ∧ updatedBeliefAinvMeanMatvec belief_Ainv action observation observation = action := by
  constructor
  · exact mean_update_reproduces belief_A.mean belief_A.covfactor action observation hA
  · exact mean_update_reproduces belief_Ainv.mean belief_Ainv.covfactor observation action hH

/-- C9 witness.  The reproduction property at a concrete one-dimensional
belief, action and observation. -/
theorem rank_two_update_reproduces_data_witness :
    ((![(1 : ℚ)] ⬝ᵥ ((!![1] : Matrix (Fin 1) (Fin 1) ℚ) *ᵥ ![1])) ≠ 0)
    ∧ ((![(2 : ℚ)] ⬝ᵥ ((!![1] : Matrix (Fin 1) (Fin 1) ℚ) *ᵥ ![2])) ≠ 0)
    ∧ updatedBeliefAMeanMatvec (⟨!![1], !![1]⟩ : MatrixBelief 1) ![1] ![2] ![1] = ![2]
    ∧ updatedBeliefAinvMeanMatvec (⟨!![1], !![1]⟩ : MatrixBelief 1) ![1] ![2] ![2] = ![1] := by
  have h1 : (![(1 : ℚ)] ⬝ᵥ ((!![1] : Matrix (Fin 1) (Fin 1) ℚ) *ᵥ ![1])) ≠ 0 := by
    norm_num [Matrix.mulVec, dotProduct]
  have h2 : (![(2 : ℚ)] ⬝ᵥ ((!![1] : Matrix (Fin 1) (Fin 1) ℚ) *ᵥ ![2])) ≠ 0 := by
    norm_num [Matrix.mulVec, dotProduct]
  obtain ⟨ha, hb⟩ :=
    rank_two_update_reproduces_data ⟨!![1], !![1]⟩ ⟨!![1], !![1]⟩ ![1] ![2] h1 h2
  exact ⟨h1, h2, ha, hb⟩

/-- C2.  The induced solution belief has mean equal to the product of the
inverse-belief mean with the right-hand-side mean, its covariance matvec is
the action of the matrix one half times the quadratic form times W plus the
outer product of Wb with itself, and the attached trace formula equals the
trace of that matrix. -/
theorem induced_solution_belief_spec {n : ℕ}
    (Ainv_mean W : Matrix (Fin n) (Fin n) ℚ) (b_mean v : Fin n → ℚ) :
    inducedSolutionMean Ainv_mean b_mean = Ainv_mean *ᵥ b_mean
    ∧ inducedSolutionCovMatvec W b_mean v
        = (((1 : ℚ) / 2) • ((b_mean ⬝ᵥ (W *ᵥ b_mean)) • W
            + vecMulVec (W *ᵥ b_mean) (W *ᵥ b_mean))) *ᵥ v
    ∧ inducedSolutionCovTraceFormula W b_mean
        = Matrix.trace (((1 : ℚ) / 2) • ((b_mean ⬝ᵥ (W *ᵥ b_mean)) • W
            + vecMulVec (W *ᵥ b_mean) (W *ᵥ b_mean))) := by
  refine ⟨rfl, ?_, ?_⟩
  · rw [Matrix.smul_mulVec_assoc, Matrix.add_mulVec, Matrix.smul_mulVec_assoc,
      vecMulVec_mulVec_eq, dotProduct_comm b_mean (W *ᵥ b_mean)]
    rfl
  · rw [Matrix.trace_smul, Matrix.trace_add, Matrix.trace_smul, trace_vecMulVec_eq,
      dotProduct_comm b_mean (W *ᵥ b_mean)]
    show inducedSolutionCovTraceFormula W b_mean
        = ((1 : ℚ) / 2) • (((W *ᵥ b_mean) ⬝ᵥ b_mean) • Matrix.trace W
            + (W *ᵥ b_mean) ⬝ᵥ (W *ᵥ b_mean))
    simp only [inducedSolutionCovTraceFormula, smul_eq_mul]
    ring

/-- C3.  In the noiseless case the step size is the negated inner product of
action and residual divided by the inner product of action and observation,
the state residual is replaced by residual plus step size times observation,
and the solution-mean update term is step size times action; but the new
solution mean x plus step size times action is never produced, because
`_update_terms_x` returns the bare array instead of the declared terms
record, so the addition in `_updated_belief_x` fails with a `TypeError`
after the state mutations have been committed.  The hypothesis states that
the cached inner-product list is exhausted at the current iteration, which
is the invariant maintained by appending one entry per iteration. -/
theorem solution_update_step_bug {n : ℕ} (st : BeliefUpdateSolverState n)
    (belief_x_mean action observation : Fin n → ℚ)
    (hcache : st.action_obs_innerprods.length ≤ st.iteration) :
    let step_size := -(action ⬝ᵥ st.residual) / (action ⬝ᵥ observation)
    updateTermsX (⟨none, none⟩ : LinearSystemNoise Unit) st action observation
      = Except.ok (step_size • action,
          { st with
            residual := st.residual + step_size • observation
            action_obs_innerprods := st.action_obs_innerprods ++ [action ⬝ᵥ observation]
            step_sizes := st.step_sizes ++ [step_size] })
    ∧ updatedBeliefX belief_x_mean (⟨none, none⟩ : LinearSystemNoise Unit) st action
        observation
      = (Except.error BeliefUpdateError.typeError,
          { st with
            residual := st.residual + step_size • observation
            action_obs_innerprods := st.action_obs_innerprods ++ [action ⬝ᵥ observation]
            step_sizes := st.step_sizes ++ [step_size] }) := by
  intro step_size
  have hget : st.action_obs_innerprods.get? st.iteration = none :=
    List.get?_eq_none.mpr hcache
  constructor
  · simp only [updateTermsX, stepSizeRun, residualRun, hget]
  · simp only [updatedBeliefX, updateTermsX, stepSizeRun, residualRun, hget]

/-- C3 witness.  The step-size and residual updates, and the failing
solution-mean addition, evaluated on a concrete one-dimensional state. -/
theorem solution_update_step_bug_witness :
    (c3State.action_obs_innerprods.length ≤ c3State.iteration)
    ∧ (let step_size := -(![1] ⬝ᵥ c3State.residual) / (![(1 : ℚ)] ⬝ᵥ ![1])
       updateTermsX (⟨none, none⟩ : LinearSystemNoise Unit) c3State ![1] ![1]
         = Except.ok (step_size • ![1],
             { c3State with
               residual := c3State.residual + step_size • ![1]
               action_obs_innerprods := c3State.action_obs_innerprods ++ [![(1 : ℚ)] ⬝ᵥ ![1]]
               step_sizes := c3State.step_sizes ++ [step_size] })
       ∧ updatedBeliefX ![3] (⟨none, none⟩ : LinearSystemNoise Unit) c3State ![1] ![1]
         = (Except.error BeliefUpdateError.typeError,
             { c3State with
               residual := c3State.residual + step_size • ![1]
               action_obs_innerprods := c3State.action_obs_innerprods ++ [![(1 : ℚ)] ⬝ᵥ ![1]]
               step_sizes := c3State.step_sizes ++ [step_size] })) := by
  have hc : c3State.action_obs_innerprods.length ≤ c3State.iteration := by
    simp [c3State]
  exact ⟨hc, solution_update_step_bug c3State ![3] ![1] ![1] hc⟩

/-- C7.  A noise model on A or b makes the solution update terms fail with
the not-implemented error, and a symmetric belief update requested for any
observation operator other than matrix-vector observation fails the same
way. -/
theorem unsupported_configuration_raises {n : ℕ} {ε R : Type}
    (noise : LinearSystemNoise ε) (st : BeliefUpdateSolverState n)
    (action observation : Fin n → ℚ)
    (hnoise : noise.A_eps ≠ none ∨ noise.b_eps ≠ none)
    (observation_op : ObservationOperatorKind)
    (hop : observation_op ≠ ObservationOperatorKind.matVecObservation)
    (belief_update : Unit → R) :
    updateTermsX noise st action observation
      = Except.error BeliefUpdateError.notImplemented
    ∧ symmetricLinearSystemBeliefUpdate observation_op belief_update
      = Except.error BeliefUpdateError.notImplemented := by
  constructor
  · obtain ⟨a, b⟩ := noise
    cases a <;> cases b <;> simp_all [updateTermsX]
  · cases observation_op
    · exact absurd rfl hop
    · rfl

/-- C7 witness.  The not-implemented failures at a concrete noise model on A
and a concrete non-matvec observation operator. -/
theorem unsupported_configuration_raises_witness :
    ((⟨some (), none⟩ : LinearSystemNoise Unit).A_eps ≠ none
      ∨ (⟨some (), none⟩ : LinearSystemNoise Unit).b_eps ≠ none)
    ∧ (ObservationOperatorKind.nonMatVec ≠ ObservationOperatorKind.matVecObservation)
    ∧ updateTermsX (⟨some (), none⟩ : LinearSystemNoise Unit) c3State ![1] ![1]
        = Except.error BeliefUpdateError.notImplemented
    ∧ symmetricLinearSystemBeliefUpdate ObservationOperatorKind.nonMatVec (fun _ => (0 : ℕ))
        = Except.error BeliefUpdateError.notImplemented := by
  have h1 : (⟨some (), none⟩ : LinearSystemNoise Unit).A_eps ≠ none
      ∨ (⟨some (), none⟩ : LinearSystemNoise Unit).b_eps ≠ none := by
    left
    simp
  have h2 : ObservationOperatorKind.nonMatVec ≠ ObservationOperatorKind.matVecObservation := by
    decide
  obtain ⟨ha, hb⟩ := unsupported_configuration_raises (⟨some (), none⟩ : LinearSystemNoise Unit)
    c3State ![1] ![1] h1 ObservationOperatorKind.nonMatVec h2 (fun _ => (0 : ℕ))
  exact ⟨h1, h2, ha, hb⟩

/-- C6 counterexample.  A weak-mean-correspondence belief constructed from
prior means that are not mutual inverses violates the correspondence on a
vector lying in the span of the observations: with A0 the 1-by-1 matrix 2,
H0 the 1-by-1 matrix 1 and the single observation vector 1, the inverse of
the A-belief mean maps 1 to one half while the H-belief mean maps 1 to 1. -/
theorem weak_mean_correspondence_counterexample :
    (![(1 : ℚ)] ∈ weakCorrCounterexampleBelief.observationSpan)
    ∧ weakCorrCounterexampleBelief.AbeliefMean⁻¹ *ᵥ ![(1 : ℚ)]
        ≠ weakCorrCounterexampleBelief.AinvBeliefMean *ᵥ ![(1 : ℚ)] := by
  constructor
  · apply Submodule.subset_span
    refine ⟨0, ?_⟩
    funext i
    fin_cases i
    rfl
  · have hinv : weakCorrCounterexampleBelief.AbeliefMean⁻¹ = !![(1 : ℚ) / 2] := by
      apply Matrix.inv_eq_right_inv
      show (!![2] : Matrix (Fin 1) (Fin 1) ℚ) * !![(1 : ℚ) / 2] = 1
      ext i j
      fin_cases i
      fin_cases j
      norm_num [Matrix.mul_apply, Matrix.one_apply]
    rw [hinv]
    intro hcontra
    have h0 := congrFun hcontra 0
    norm_num [Matrix.mulVec, dotProduct, weakCorrCounterexampleBelief,
      WeakMeanCorrespondenceBelief.AinvBeliefMean] at h0

/-- C6 amended.  For a weak-mean-correspondence belief whose prior means are
mutual inverses, as enforced by the `from_scalar`, `from_matrix` and
`from_inverse` constructors, the inverse of the A-belief mean agrees with
the H-belief mean on every vector in the span of the observations. -/
theorem weak_mean_correspondence_inverse_prior {n k : ℕ}
    (B : WeakMeanCorrespondenceBelief n k) (hmeans : B.A0 * B.Ainv0 = 1)
    (y : Fin n → ℚ) (hy : y ∈ B.observationSpan) :
    B.AbeliefMean⁻¹ *ᵥ y = B.AinvBeliefMean *ᵥ y := by
  have h := Matrix.inv_eq_right_inv hmeans
  simp only [WeakMeanCorrespondenceBelief.AbeliefMean,
    WeakMeanCorrespondenceBelief.AinvBeliefMean, h]

/-- C6 witness.  The amended correspondence at the concrete belief with
A0 the 1-by-1 matrix 2 and H0 its inverse, on the recorded observation. -/
theorem weak_mean_correspondence_inverse_prior_witness :
    (weakCorrInversePriorBelief.A0 * weakCorrInversePriorBelief.Ainv0 = 1)
    ∧ (![(1 : ℚ)] ∈ weakCorrInversePriorBelief.observationSpan)
    ∧ weakCorrInversePriorBelief.AbeliefMean⁻¹ *ᵥ ![(1 : ℚ)]
        = weakCorrInversePriorBelief.AinvBeliefMean *ᵥ ![(1 : ℚ)] := by
  have hmeans : weakCorrInversePriorBelief.A0 * weakCorrInversePriorBelief.Ainv0 = 1 := by
    show (!![2] : Matrix (Fin 1) (Fin 1) ℚ) * !![(1 : ℚ) / 2] = 1
    ext i j
    fin_cases i
    fin_cases j
    norm_num [Matrix.mul_apply, Matrix.one_apply]
  have hmem : ![(1 : ℚ)] ∈ weakCorrInversePriorBelief.observationSpan := by
    apply Submodule.subset_span
    refine ⟨0, ?_⟩
    funext i
    fin_cases i
    rfl
  exact ⟨hmeans, hmem,
    weak_mean_correspondence_inverse_prior weakCorrInversePriorBelief hmeans ![1] hmem⟩

/-- C8.  When the recorded inner-product matrix of actions and observations
is diagonal with nonzero diagonal, the diagonal-solve shortcut branch of the
system-matrix covariance factor computes the same vector as the general
linear-solve branch, and both compute the action of the matrix
Y times the inverse of the inner-product matrix times the transpose of Y. -/
theorem conjugate_actions_diagonal_shortcut {n k : ℕ}
    (B : WeakMeanCorrespondenceBelief n k) (d : Fin k → ℚ) (hd : ∀ j, d j ≠ 0)
    (x : Fin n → ℚ) :
    B.covFactorMatrixDiagMatvec d x
      = B.covFactorMatrixGeneralMatvec (Matrix.diagonal d) x
    ∧ B.covFactorMatrixGeneralMatvec (Matrix.diagonal d) x
      = (B.observations * (Matrix.diagonal d)⁻¹ * B.observationsᵀ) *ᵥ x := by
  have hinv : matInv (Matrix.diagonal d) = Matrix.diagonal fun j => (d j)⁻¹ := by
    rw [matInv_eq_inv]
    apply Matrix.inv_eq_right_inv
    rw [Matrix.diagonal_mul_diagonal]
    have hone : (fun j => d j * (d j)⁻¹) = fun _ => (1 : ℚ) :=
      funext fun j => mul_inv_cancel₀ (hd j)
    rw [hone, Matrix.diagonal_one]
  constructor
  · have hin : (Matrix.diagonal fun j => (d j)⁻¹) *ᵥ (B.observationsᵀ *ᵥ x)
        = fun j => (d j)⁻¹ * (B.observationsᵀ *ᵥ x) j :=
      funext fun j => Matrix.mulVec_diagonal _ _ j
    simp only [WeakMeanCorrespondenceBelief.covFactorMatrixDiagMatvec,
      WeakMeanCorrespondenceBelief.covFactorMatrixGeneralMatvec, hinv, hin]
    ext i
    simp only [Matrix.mulVec, dotProduct, Matrix.of_apply]
    exact Finset.sum_congr rfl fun j _ => by ring
  · simp only [WeakMeanCorrespondenceBelief.covFactorMatrixGeneralMatvec, matInv_eq_inv,
      Matrix.mulVec_mulVec, Matrix.mul_assoc]

/-- C8 witness.  The branch agreement at a concrete one-dimensional belief
with a nonzero recorded inner product. -/
theorem conjugate_actions_diagonal_shortcut_witness :
    (∀ j : Fin 1, ![(2 : ℚ)] j ≠ 0)
    ∧ weakCorrInversePriorBelief.covFactorMatrixDiagMatvec ![2] ![5]
        = weakCorrInversePriorBelief.covFactorMatrixGeneralMatvec (Matrix.diagonal ![2]) ![5]
    ∧ weakCorrInversePriorBelief.covFactorMatrixGeneralMatvec (Matrix.diagonal ![2]) ![5]
        = (weakCorrInversePriorBelief.observations * (Matrix.diagonal ![2])⁻¹
            * weakCorrInversePriorBelief.observationsᵀ) *ᵥ ![5] := by
  have hd : ∀ j : Fin 1, ![(2 : ℚ)] j ≠ 0 := by
    intro j
    fin_cases j
    norm_num
  obtain ⟨ha, hb⟩ :=
    conjugate_actions_diagonal_shortcut weakCorrInversePriorBelief ![2] hd ![5]
  exact ⟨hd, ha, hb⟩

/-- Gram matrix of a basis with respect to a positive definite inner-product
matrix has invertible determinant when the basis columns are independent. -/
lemma gram_isUnit_det {n k : ℕ} (A : Matrix (Fin n) (Fin k) ℚ)
    (D : Matrix (Fin n) (Fin n) ℚ) (hpos : matPosDef D)
    (hbasis : ∀ w : Fin k → ℚ, A *ᵥ w = 0 → w = 0) :
    IsUnit (Aᵀ * D * A).det := by
  rw [isUnit_iff_ne_zero]
  intro hdet
  obtain ⟨v, hv0, hv⟩ := Matrix.exists_mulVec_eq_zero_iff.mpr hdet
  have h2 : v ⬝ᵥ ((Aᵀ * D * A) *ᵥ v) = (A *ᵥ v) ⬝ᵥ (D *ᵥ (A *ᵥ v)) := by
    rw [← Matrix.mulVec_mulVec, ← Matrix.mulVec_mulVec, Matrix.dotProduct_mulVec,
      Matrix.vecMul_transpose]
  have h1 : v ⬝ᵥ ((Aᵀ * D * A) *ᵥ v) = 0 := by rw [hv, dotProduct_zero]
  by_cases hAv : A *ᵥ v = 0
  · exact hv0 (hbasis v hAv)
  · have hlt := hpos (A *ᵥ v) hAv
    rw [h2] at h1
    exact absurd h1 (ne_of_gt hlt)

/-- C10.  The orthogonal projection operator is idempotent: for a basis with
independent columns, a symmetric positive definite inner-product matrix, and
a truthful orthonormality flag, applying the matvec twice equals applying it
once. -/
theorem orthogonal_projection_idempotent {n k : ℕ}
    (subspace_basis : Matrix (Fin n) (Fin k) ℚ)
    (innerprod_matrix : Matrix (Fin n) (Fin n) ℚ) (is_orthonormal : Bool)
    (hsymm : innerprod_matrix.IsSymm) (hpos : matPosDef innerprod_matrix)
    (hbasis : ∀ w : Fin k → ℚ, subspace_basis *ᵥ w = 0 → w = 0)
    (hortho : is_orthonormal = true →
      subspace_basisᵀ * innerprod_matrix * subspace_basis = 1)
    (x : Fin n → ℚ) :
    orthogonalProjectionMatvec subspace_basis innerprod_matrix is_orthonormal
        (orthogonalProjectionMatvec subspace_basis innerprod_matrix is_orthonormal x)
      = orthogonalProjectionMatvec subspace_basis innerprod_matrix is_orthonormal x := by
  have key : (transformedBasis subspace_basis innerprod_matrix is_orthonormal)ᵀ *
      innerprod_matrix * subspace_basis = 1 := by
    cases is_orthonormal with
    | false =>
      have hdet : IsUnit (subspace_basisᵀ * innerprod_matrix * subspace_basis).det :=
        gram_isUnit_det subspace_basis innerprod_matrix hpos hbasis
      simp only [transformedBasis, Bool.false_eq_true, if_false]
      rw [matInv_eq_inv, Matrix.transpose_mul, Matrix.transpose_transpose,
        Matrix.mul_assoc, Matrix.mul_assoc, ← Matrix.mul_assoc subspace_basisᵀ]
      exact Matrix.nonsing_inv_mul _ hdet
    | true =>
      simp only [transformedBasis, if_true]
      exact hortho rfl
  have hmv : ∀ y, orthogonalProjectionMatvec subspace_basis innerprod_matrix is_orthonormal y
      = (subspace_basis * (transformedBasis subspace_basis innerprod_matrix is_orthonormal)ᵀ *
          innerprod_matrix) *ᵥ y := by
    intro y
    simp only [orthogonalProjectionMatvec, Matrix.mulVec_mulVec, Matrix.mul_assoc]
  rw [hmv, hmv, Matrix.mulVec_mulVec]
  have h1 : (subspace_basis * (transformedBasis subspace_basis innerprod_matrix
        is_orthonormal)ᵀ * innerprod_matrix) *
      (subspace_basis * (transformedBasis subspace_basis innerprod_matrix
        is_orthonormal)ᵀ * innerprod_matrix)
      = subspace_basis *
          (((transformedBasis subspace_basis innerprod_matrix is_orthonormal)ᵀ *
              innerprod_matrix * subspace_basis) *
            ((transformedBasis subspace_basis innerprod_matrix is_orthonormal)ᵀ *
              innerprod_matrix)) := by
    simp only [Matrix.mul_assoc]
  rw [h1, key, Matrix.one_mul, ← Matrix.mul_assoc]

/-- C10 witness.  Idempotence evaluated for a concrete two-dimensional space,
a one-column basis, the identity inner product and a concrete vector. -/
theorem orthogonal_projection_idempotent_witness :
    (1 : Matrix (Fin 2) (Fin 2) ℚ).IsSymm
    ∧ matPosDef (1 : Matrix (Fin 2) (Fin 2) ℚ)
    ∧ (∀ w : Fin 1 → ℚ, (!![1; 0] : Matrix (Fin 2) (Fin 1) ℚ) *ᵥ w = 0 → w = 0)
    ∧ orthogonalProjectionMatvec (!![1; 0] : Matrix (Fin 2) (Fin 1) ℚ) 1 false
        (orthogonalProjectionMatvec (!![1; 0] : Matrix (Fin 2) (Fin 1) ℚ) 1 false ![3, 5])
      = orthogonalProjectionMatvec (!![1; 0] : Matrix (Fin 2) (Fin 1) ℚ) 1 false ![3, 5] := by
  have h1 : (1 : Matrix (Fin 2) (Fin 2) ℚ).IsSymm := Matrix.isSymm_one
  have h2 : matPosDef (1 : Matrix (Fin 2) (Fin 2) ℚ) := by
    intro y hy
    rw [Matrix.one_mulVec]
    exact dotProduct_self_pos y hy
  have h3 : ∀ w : Fin 1 → ℚ, (!![1; 0] : Matrix (Fin 2) (Fin 1) ℚ) *ᵥ w = 0 → w = 0 := by
    intro w hw
    funext j
    fin_cases j
    have h0 := congrFun hw 0
    simpa [Matrix.mulVec, dotProduct] using h0
  exact ⟨h1, h2, h3,
    orthogonal_projection_idempotent (!![1; 0] : Matrix (Fin 2) (Fin 1) ℚ) 1 false h1 h2 h3
      (fun h => absurd h Bool.false_ne_true) ![3, 5]⟩

/-- C4.  On a problem whose stopping criteria are satisfied on the freshly
initialized state, the iterator yields no state and takes no action, the
final state still carries the unchanged prior belief and the convergence
flag, but `solve` ends in the not-implemented error of the
`_belief_solution` stub instead of returning the belief-state pair that its
contract promises. -/
theorem solve_immediate_convergence_stub_bug :
    ((solveIteratorRun solveBugSolver solveBugProblem 10).1 = [])
    ∧ ((solveIteratorRun solveBugSolver solveBugProblem 10).2.actions = [])
    ∧ ((solveIteratorRun solveBugSolver solveBugProblem 10).2.observations = [])
    ∧ ((solveIteratorRun solveBugSolver solveBugProblem 10).2.belief = solveBugSolver.prior)
    ∧ ((solveIteratorRun solveBugSolver solveBugProblem 10).2.has_converged = true)
    ∧ (solve solveBugSolver solveBugProblem 10
        = Except.error SolverError.notImplemented) :=
  ⟨rfl, rfl, rfl, rfl, rfl, rfl⟩

/-- C5.  One completed pass of the solver loop appends exactly one action
and one observation, but leaves the iteration counter at zero: the loop body
never increments it, so after one completed iteration the counter does not
equal one as the claim requires. -/
theorem solver_loop_iteration_counter_stuck :
    ((solveIteratorRun loopBugSolver loopBugProblem 1).2.actions.length = 1)
    ∧ ((solveIteratorRun loopBugSolver loopBugProblem 1).2.observations.length = 1)
    ∧ ((solveIteratorRun loopBugSolver loopBugProblem 1).1.length = 1)
    ∧ ((solveIteratorRun loopBugSolver loopBugProblem 1).2.iteration = 0) :=
  ⟨rfl, rfl, rfl, rfl⟩

end ProbNum
